import Mathlib

/-!
Shallow embedding of the gsm-operator controller core (Go) in Lean 4.

The definitions below translate, function by function, the Go source of the
repository: the secretMaterializer helpers (service_accounts.go), the GSM
resolver (secret_materializer_gsm.go, newest revision), the Kubernetes
Secret builder (secret_materializer_k8s_secrets_builder.go), and the
reconciler helpers setStatusCondition / applySecret and the two event
predicates (gsmsecret_controller.go, newest revision).

Modelling conventions:
  - Go byte slices are lists of byte values (Nat, each < 256 in practice).
  - Go maps are association lists with unique keys; map indexing returns the
    zero value for a missing key, which the lookup helpers reproduce.
  - The process environment (os.Getenv) is a function from variable name to
    value, with the empty string standing for an unset variable.
  - Network effects (Secret Manager AccessSecretVersion) are an oracle
    function from resource name to a result.
  - metav1.Now() is an explicit instant parameter.
-/

namespace GsmOperator

/-- Byte strings: Go []byte values as lists of byte values. -/
abbrev Bytes := List Nat

/-- UTF-8 encoding of one character. -/
def utf8Bytes (c : Char) : Bytes :=
  let n := c.toNat
  if n < 0x80 then [n]
  else if n < 0x800 then [0xC0 + n / 64, 0x80 + n % 64]
  else if n < 0x10000 then [0xE0 + n / 4096, 0x80 + (n / 64) % 64, 0x80 + n % 64]
  else [0xF0 + n / 262144, 0x80 + (n / 4096) % 64, 0x80 + (n / 64) % 64, 0x80 + n % 64]

/-- Bytes of a string: Go string-to-[]byte conversion (UTF-8). -/
def strBytes (s : String) : Bytes := s.data.foldr (fun c acc => utf8Bytes c ++ acc) []

/-- Go map[string]string as an association list (unique keys by construction
in all inputs considered). -/
abbrev StrMap := List (String × String)

/-- Go map indexing m[k] for a map[string]string: the empty string is the
zero value returned for a missing key (also for a nil map, which is []). -/
def StrMap.get : StrMap → String → String
  | [], _ => ""
  | p :: rest, k => if p.1 = k then p.2 else StrMap.get rest k

/-- Unicode white space recognized by Go unicode.IsSpace (the full
White_Space set, as used by strings.TrimSpace). -/
def goIsSpace (c : Char) : Bool :=
  let n := c.toNat
  (0x9 ≤ n && n ≤ 0xD) || n == 0x20 || n == 0x85 || n == 0xA0 ||
  n == 0x1680 || (0x2000 ≤ n && n ≤ 0x200A) || n == 0x2028 || n == 0x2029 ||
  n == 0x202F || n == 0x205F || n == 0x3000

/-- Go strings.TrimSpace. -/
def goTrimSpace (s : String) : String :=
  String.mk (((s.data.dropWhile goIsSpace).reverse.dropWhile goIsSpace).reverse)

/-- Lowercase hex digit character of a value below 16. -/
def hexDigitChar (n : Nat) : Char :=
  if n < 10 then Char.ofNat (0x30 + n) else Char.ofNat (0x61 + (n - 10))

/-- Escaping of one character under Go strconv.Quote, which fmt uses for
the %q verb in error messages. -/
def goQuoteChar (c : Char) : List Char :=
  if c = '"' then ['\\', '"']
  else if c = '\\' then ['\\', '\\']
  else if c = '\n' then ['\\', 'n']
  else if c = '\r' then ['\\', 'r']
  else if c = '\t' then ['\\', 't']
  else if c.toNat = 0x7 then ['\\', 'a']
  else if c.toNat = 0x8 then ['\\', 'b']
  else if c.toNat = 0xC then ['\\', 'f']
  else if c.toNat = 0xB then ['\\', 'v']
  else if c.toNat < 0x20 || c.toNat = 0x7F then
    ['\\', 'x', hexDigitChar (c.toNat / 16), hexDigitChar (c.toNat % 16)]
  else [c]

/-- Go fmt %q of a string (ASCII-printable fragment). -/
def goQuote (s : String) : String :=
  String.mk ('"' :: s.data.foldr (fun c acc => goQuoteChar c ++ acc) ['"'])

/-- Annotation keys for configuration overrides (api/v1alpha1, newest
revision). -/
def AnnotationKSA : String := "secrets.gsm-operator.io/ksa"

/-- Annotation key for the GCP ServiceAccount override. -/
def AnnotationGSA : String := "secrets.gsm-operator.io/gsa"

/-- Annotation key for the WIF audience override. -/
def AnnotationWIFAudience : String := "secrets.gsm-operator.io/wif-audience"

/-- Annotation key for the opaque release marker. -/
def AnnotationRelease : String := "secrets.gsm-operator.io/release"

/-- Process environment: os.Getenv, with "" for an unset variable. -/
abbrev GoEnv := String → String

/-- SecretKeyMapping: one targetKey / sourcePointer pair of a key-mapping
entry (api/v1alpha1, newest revision). -/
structure SecretKeyMapping where
  key : String
  value : String
deriving DecidableEq, Repr

/-- GSMSecretEntry: a single GSM secret to materialize. The newest revision
makes key optional and adds keys (XOR enforced at admission and re-checked
at runtime). -/
structure GSMSecretEntry where
  key : String := ""
  keys : List SecretKeyMapping := []
  projectID : String
  secretID : String
  version : String
deriving DecidableEq, Repr

/-- GSMSecretTargetSecret: the Kubernetes Secret to materialize into. -/
structure GSMSecretTargetSecret where
  name : String
deriving DecidableEq, Repr

/-- GSMSecretSpec (newest revision: target plus the entry list). -/
structure GSMSecretSpec where
  targetSecret : GSMSecretTargetSecret
  secrets : List GSMSecretEntry
deriving DecidableEq, Repr

/-- metav1.ConditionStatus. -/
inductive ConditionStatus where
  | conditionTrue
  | conditionFalse
  | conditionUnknown
deriving DecidableEq, Repr

/-- metav1.Condition, with lastTransitionTime as an abstract instant. -/
structure Condition where
  condType : String
  status : ConditionStatus
  observedGeneration : Int
  lastTransitionTime : Nat
  reason : String
  message : String
deriving DecidableEq, Repr

/-- GSMSecretStatus. -/
structure GSMSecretStatus where
  observedGeneration : Int := 0
  conditions : List Condition := []
deriving DecidableEq, Repr

/-- The object metadata fields of a GSMSecret that the controller reads.
The field ns is metadata.namespace. -/
structure ObjectMeta where
  name : String := ""
  ns : String := ""
  uid : String := ""
  generation : Int := 0
  resourceVersion : String := ""
  labels : StrMap := []
  annotations : StrMap := []
deriving DecidableEq, Repr

/-- GSMSecret: the declarative resource. -/
structure GSMSecret where
  meta : ObjectMeta
  spec : GSMSecretSpec
  status : GSMSecretStatus := {}
deriving DecidableEq, Repr

/-- KeyedSecretPayload: a target Secret data key with its GSM payload. -/
structure KeyedSecretPayload where
  key : String
  value : Bytes
deriving DecidableEq, Repr

/-- The secretMaterializer state: the GSMSecret being reconciled and the
resolved payloads (the kubeClientFn dependency carries no state that the
claims touch). -/
structure SecretMaterializer where
  gsmSecret : GSMSecret
  payloads : List KeyedSecretPayload := []
deriving DecidableEq, Repr

/-! Identity resolution helpers (service_accounts.go, newest revision). -/

/-- Kubernetes TokenRequest minimum expiration, in seconds. -/
def minTokenExpSeconds : Nat := 10 * 60

/-- Package default for the token expiration: the Kubernetes minimum. -/
def defaultTokenExpSeconds : Nat := minTokenExpSeconds

/-- Default Kubernetes ServiceAccount name when not specified. -/
def defaultKSAName : String := "default"

/-- Translation of secretMaterializer.getKSA: the KSA env var wins, else the
trimmed KSA annotation when non-empty, else the hardcoded default. A nil
annotations map and a missing key both yield "" under StrMap.get, matching
Go map semantics. -/
def getKSA (env : GoEnv) (gsm : GSMSecret) : String :=
  if env "KSA" != "" then env "KSA"
  else if goTrimSpace (StrMap.get gsm.meta.annotations AnnotationKSA) != "" then
    goTrimSpace (StrMap.get gsm.meta.annotations AnnotationKSA)
  else defaultKSAName

/-- Go strconv.ParseUint(s, 10, 64): decimal digits only, no sign, no
underscores, overflow (value not below 2^64) is an error. Returns none on
any parse error. -/
def goParseUint64 (s : String) : Option Nat :=
  if s.data ≠ [] && s.data.all Char.isDigit then
    let v := s.data.foldl (fun a c => a * 10 + (c.toNat - 48)) 0
    if v < 2 ^ 64 then some v else none
  else none

/-- Translation of secretMaterializer.getTokenExpSeconds: a parsed positive
TOKEN_EXP_SECONDS below the minimum is clamped up to the minimum, at or
above it is returned verbatim; everything else falls to the package
default. -/
def getTokenExpSeconds (env : GoEnv) : Nat :=
  let v := env "TOKEN_EXP_SECONDS"
  if v != "" then
    match goParseUint64 v with
    | some parsed =>
      if parsed > 0 then
        if parsed < minTokenExpSeconds then minTokenExpSeconds else parsed
      else defaultTokenExpSeconds
    | none => defaultTokenExpSeconds
  else defaultTokenExpSeconds

/-! Resource name construction for Secret Manager fetches. -/

/-- Resource name built inline by fetchSecretEntriesPayloads in the newest
resolver (secret_materializer_gsm.go): the version of the entry is used
verbatim. -/
def entryResourceName (e : GSMSecretEntry) : String :=
  "projects/" ++ e.projectID ++ "/secrets/" ++ e.secretID ++ "/versions/" ++ e.version

/-- Name construction of the legacy standalone helper AccessSecretPayload
(gsm_secret.go): an empty version is defaulted to "latest" before the name
is formatted. -/
def accessSecretPayloadName (projectID secretID version : String) : String :=
  let version := if version = "" then "latest" else version
  "projects/" ++ projectID ++ "/secrets/" ++ secretID ++ "/versions/" ++ version

/-! JSON values, as produced by Go json.Unmarshal into interface (nil,
bool, float64, string, []interface, map[string]interface).

Modelling choices: a number keeps its source literal (the float64 value and
its re-formatting are abstracted; no claim touches number round-trips).
Object fields are kept sorted by key with unique keys: a Go map has no
iteration order, duplicate keys overwrite (later wins, reproduced by the
ordered insert below), and json.Marshal emits map keys in sorted order, so
the sorted unique representation is observationally the Go map. -/

mutual

inductive Json where
  | null
  | boolean (b : Bool)
  | num (lit : String)
  | str (s : String)
  | arr (elems : JsonElems)
  | obj (fields : JsonFields)

inductive JsonElems where
  | nil
  | cons (hd : Json) (tl : JsonElems)

inductive JsonFields where
  | nil
  | cons (key : String) (val : Json) (tl : JsonFields)

end

/-- Byte-wise (equivalently, scalar-wise) string order, as Go compares
strings and sorts map keys for marshalling. -/
def charListLt : List Char → List Char → Bool
  | [], [] => false
  | [], _ :: _ => true
  | _ :: _, [] => false
  | a :: as, b :: bs =>
    if a.toNat < b.toNat then true
    else if b.toNat < a.toNat then false
    else charListLt as bs

/-- String order on the underlying characters. -/
def strLt (a b : String) : Bool := charListLt a.data b.data

/-- Ordered insert of a field into a sorted field list, overwriting an
existing key: Go map assignment followed by the sorted-key marshal order. -/
def jsonObjAssign : JsonFields → String → Json → JsonFields
  | .nil, k, v => .cons k v .nil
  | .cons k0 v0 t, k, v =>
    if k = k0 then .cons k v t
    else if strLt k k0 then .cons k v (.cons k0 v0 t)
    else .cons k0 v0 (jsonObjAssign t k v)

/-- Lookup of an object field: Go map indexing (fields are unique). -/
def jsonObjFind : JsonFields → String → Option Json
  | .nil, _ => none
  | .cons k0 v0 t, k => if k0 = k then some v0 else jsonObjFind t k

/-- Array element access by index. -/
def jsonArrGet : JsonElems → Nat → Option Json
  | .nil, _ => none
  | .cons h _, 0 => some h
  | .cons _ t, n + 1 => jsonArrGet t n

/-! Lexing helpers for the byte-level JSON parser (encoding/json). -/

/-- JSON insignificant whitespace (space, tab, newline, carriage return). -/
def jsonSkipWs : Bytes → Bytes
  | b :: rest =>
    if b == 0x20 || b == 0x09 || b == 0x0A || b == 0x0D then jsonSkipWs rest
    else b :: rest
  | [] => []

/-- Decimal digit byte. -/
def isDigitByte (b : Nat) : Bool := 0x30 ≤ b && b ≤ 0x39

/-- Value of a hex digit byte, if it is one. -/
def hexDigitVal (b : Nat) : Option Nat :=
  if 0x30 ≤ b && b ≤ 0x39 then some (b - 0x30)
  else if 0x41 ≤ b && b ≤ 0x46 then some (b - 0x41 + 10)
  else if 0x61 ≤ b && b ≤ 0x66 then some (b - 0x61 + 10)
  else none

/-- Prepend a decoded character to the result of parsing the rest of a
string body. -/
def strConsResult (c : Char) (r : Except String (List Char × Bytes)) :
    Except String (List Char × Bytes) :=
  match r with
  | .ok (cs, rest) => .ok (c :: cs, rest)
  | .error e => .error e

/-- Body of a JSON string literal after the opening quote: standard escape
sequences, UTF-8 multi-byte sequences decoded to their scalar value. -/
def parseJsonStringBody : Bytes → Except String (List Char × Bytes)
  | [] => .error "unexpected end of JSON input"
  | 0x22 :: rest => .ok ([], rest)
  | 0x5C :: 0x22 :: rest => strConsResult '"' (parseJsonStringBody rest)
  | 0x5C :: 0x5C :: rest => strConsResult '\\' (parseJsonStringBody rest)
  | 0x5C :: 0x2F :: rest => strConsResult '/' (parseJsonStringBody rest)
  | 0x5C :: 0x62 :: rest => strConsResult (Char.ofNat 0x8) (parseJsonStringBody rest)
  | 0x5C :: 0x66 :: rest => strConsResult (Char.ofNat 0xC) (parseJsonStringBody rest)
  | 0x5C :: 0x6E :: rest => strConsResult '\n' (parseJsonStringBody rest)
  | 0x5C :: 0x72 :: rest => strConsResult '\r' (parseJsonStringBody rest)
  | 0x5C :: 0x74 :: rest => strConsResult '\t' (parseJsonStringBody rest)
  | 0x5C :: 0x75 :: h1 :: h2 :: h3 :: h4 :: rest =>
    (match hexDigitVal h1, hexDigitVal h2, hexDigitVal h3, hexDigitVal h4 with
     | some a, some b, some c, some d =>
       strConsResult (Char.ofNat (((a * 16 + b) * 16 + c) * 16 + d)) (parseJsonStringBody rest)
     | _, _, _, _ => .error "invalid unicode escape in string literal")
  | 0x5C :: _ => .error "invalid escape in string literal"
  | b1 :: b2 :: b3 :: b4 :: rest =>
    if b1 < 0x20 then .error "invalid control character in string literal"
    else if b1 < 0x80 then
      strConsResult (Char.ofNat b1) (parseJsonStringBody (b2 :: b3 :: b4 :: rest))
    else if 0xC0 ≤ b1 && b1 < 0xE0 then
      strConsResult (Char.ofNat ((b1 - 0xC0) * 64 + (b2 - 0x80)))
        (parseJsonStringBody (b3 :: b4 :: rest))
    else if 0xE0 ≤ b1 && b1 < 0xF0 then
      strConsResult (Char.ofNat (((b1 - 0xE0) * 64 + (b2 - 0x80)) * 64 + (b3 - 0x80)))
        (parseJsonStringBody (b4 :: rest))
    else
      strConsResult (Char.ofNat ((((b1 - 0xF0) * 64 + (b2 - 0x80)) * 64 + (b3 - 0x80)) * 64 + (b4 - 0x80)))
        (parseJsonStringBody rest)
  | b1 :: b2 :: b3 :: rest =>
    if b1 < 0x20 then .error "invalid control character in string literal"
    else if b1 < 0x80 then strConsResult (Char.ofNat b1) (parseJsonStringBody (b2 :: b3 :: rest))
    else if 0xC0 ≤ b1 && b1 < 0xE0 then
      strConsResult (Char.ofNat ((b1 - 0xC0) * 64 + (b2 - 0x80))) (parseJsonStringBody (b3 :: rest))
    else if 0xE0 ≤ b1 && b1 < 0xF0 then
      strConsResult (Char.ofNat (((b1 - 0xE0) * 64 + (b2 - 0x80)) * 64 + (b3 - 0x80)))
        (parseJsonStringBody rest)
    else .error "invalid UTF-8 in string literal"
  | b1 :: b2 :: rest =>
    if b1 < 0x20 then .error "invalid control character in string literal"
    else if b1 < 0x80 then strConsResult (Char.ofNat b1) (parseJsonStringBody (b2 :: rest))
    else if 0xC0 ≤ b1 && b1 < 0xE0 then
      strConsResult (Char.ofNat ((b1 - 0xC0) * 64 + (b2 - 0x80))) (parseJsonStringBody rest)
    else .error "invalid UTF-8 in string literal"
  | b1 :: rest =>
    if 0x20 ≤ b1 && b1 < 0x80 then strConsResult (Char.ofNat b1) (parseJsonStringBody rest)
    else .error "invalid character in string literal"

/-- Bytes that may appear in a JSON number literal. -/
def isNumByte (b : Nat) : Bool :=
  isDigitByte b || b == 0x2D || b == 0x2B || b == 0x2E || b == 0x65 || b == 0x45

/-- Consume one or more digits; return the remainder on success. -/
def consumeDigits1 : List Nat → Option (List Nat)
  | b :: rest => if isDigitByte b then some (rest.dropWhile isDigitByte) else none
  | [] => none

/-- Optional fraction and exponent suffix, then end of literal: the JSON
number grammar after the integer part. -/
def validNumTail (bs : List Nat) : Bool :=
  let afterFrac :=
    match bs with
    | 0x2E :: rest => consumeDigits1 rest
    | _ => some bs
  match afterFrac with
  | none => false
  | some bs2 =>
    match bs2 with
    | [] => true
    | e :: rest =>
      if e == 0x65 || e == 0x45 then
        let rest2 := match rest with
          | s :: r => if s == 0x2B || s == 0x2D then r else rest
          | [] => rest
        match consumeDigits1 rest2 with
        | some [] => true
        | _ => false
      else false

/-- Validity of a complete JSON number literal (RFC 8259 grammar, as
enforced by encoding/json). -/
def validNumLit (bs : List Nat) : Bool :=
  let bs := match bs with
    | 0x2D :: rest => rest
    | _ => bs
  match bs with
  | 0x30 :: rest => validNumTail rest
  | b :: rest => if 0x31 ≤ b && b ≤ 0x39 then validNumTail (rest.dropWhile isDigitByte) else false
  | [] => false

/-- ASCII string from a list of bytes (used for number literals, which are
all ASCII). -/
def bytesAscii (bs : Bytes) : String := String.mk (bs.map Char.ofNat)

/-- Object members collected in parse order, before Go map normalization. -/
abbrev RawFields := List (String × Json)

/-- Member list of a JSON object (after the opening brace and leading
whitespace, positioned at the first key). The value parser is passed in so
that the recursion is structural on the fuel. -/
def parseMembersWith (pv : Bytes → Except String (Json × Bytes)) :
    Nat → Bytes → Except String (RawFields × Bytes)
  | 0, _ => .error "unexpected end of JSON input"
  | fuel + 1, input =>
    match input with
    | 0x22 :: rest =>
      (match parseJsonStringBody rest with
       | .error e => .error e
       | .ok (keyChars, rest1) =>
         match jsonSkipWs rest1 with
         | 0x3A :: rest2 =>
           (match pv (jsonSkipWs rest2) with
            | .error e => .error e
            | .ok (v, rest3) =>
              match jsonSkipWs rest3 with
              | 0x2C :: rest4 =>
                (match parseMembersWith pv fuel (jsonSkipWs rest4) with
                 | .error e => .error e
                 | .ok (fs, rest5) => .ok ((String.mk keyChars, v) :: fs, rest5))
              | 0x7D :: rest4 => .ok ([(String.mk keyChars, v)], rest4)
              | _ => .error "invalid character after object member")
         | _ => .error "expected colon after object key")
    | _ => .error "expected string key in object"

/-- Element list of a JSON array (positioned at the first element). -/
def parseElemsWith (pv : Bytes → Except String (Json × Bytes)) :
    Nat → Bytes → Except String (JsonElems × Bytes)
  | 0, _ => .error "unexpected end of JSON input"
  | fuel + 1, input =>
    match pv input with
    | .error e => .error e
    | .ok (v, rest) =>
      match jsonSkipWs rest with
      | 0x2C :: rest1 =>
        (match parseElemsWith pv fuel (jsonSkipWs rest1) with
         | .error e => .error e
         | .ok (es, rest2) => .ok (.cons v es, rest2))
      | 0x5D :: rest1 => .ok (.cons v .nil, rest1)
      | _ => .error "invalid character after array element"

/-- Go map construction from members in parse order: later duplicate keys
overwrite earlier ones. -/
def normalizeFields (raw : RawFields) : JsonFields :=
  raw.foldl (fun acc p => jsonObjAssign acc p.1 p.2) .nil

/-- One JSON value, fuel-bounded (the fuel is instantiated with the input
length, which the grammar can never exhaust). -/
def parseJsonValue : Nat → Bytes → Except String (Json × Bytes)
  | 0, _ => .error "unexpected end of JSON input"
  | fuel + 1, input =>
    match jsonSkipWs input with
    | [] => .error "unexpected end of JSON input"
    | 0x7B :: rest =>
      (match jsonSkipWs rest with
       | 0x7D :: rest1 => .ok (.obj .nil, rest1)
       | rest1 =>
         match parseMembersWith (fun bs => parseJsonValue fuel bs) fuel rest1 with
         | .error e => .error e
         | .ok (raw, rest2) => .ok (.obj (normalizeFields raw), rest2))
    | 0x5B :: rest =>
      (match jsonSkipWs rest with
       | 0x5D :: rest1 => .ok (.arr .nil, rest1)
       | rest1 =>
         match parseElemsWith (fun bs => parseJsonValue fuel bs) fuel rest1 with
         | .error e => .error e
         | .ok (es, rest2) => .ok (.arr es, rest2))
    | 0x22 :: rest =>
      (match parseJsonStringBody rest with
       | .error e => .error e
       | .ok (cs, rest1) => .ok (.str (String.mk cs), rest1))
    | 0x74 :: 0x72 :: 0x75 :: 0x65 :: rest => .ok (.boolean true, rest)
    | 0x66 :: 0x61 :: 0x6C :: 0x73 :: 0x65 :: rest => .ok (.boolean false, rest)
    | 0x6E :: 0x75 :: 0x6C :: 0x6C :: rest => .ok (.null, rest)
    | b :: rest =>
      if b == 0x2D || isDigitByte b then
        let lit := (b :: rest).takeWhile isNumByte
        if validNumLit lit then .ok (.num (bytesAscii lit), (b :: rest).dropWhile isNumByte)
        else .error "invalid number literal"
      else .error "invalid character looking for beginning of value"

/-- Go json.Unmarshal of a byte payload into an interface value: one JSON
value followed only by whitespace. -/
def jsonUnmarshal (data : Bytes) : Except String Json :=
  match parseJsonValue (data.length + 1) data with
  | .error e => .error e
  | .ok (v, rest) =>
    match jsonSkipWs rest with
    | [] => .ok v
    | _ => .error "invalid character after top-level value"

/-! Serialization back to bytes: Go json.Marshal of an interface value,
with its default HTML escaping and sorted map keys (the fields are already
stored sorted). -/

/-- Lowercase hex digit byte of a value below 16. -/
def hexByteDigit (n : Nat) : Nat := if n < 10 then 0x30 + n else 0x61 + (n - 10)

/-- Escaping of one character inside a marshalled JSON string, as done by
encoding/json with HTML escaping on. -/
def jsonEscapeChar (c : Char) : Bytes :=
  let n := c.toNat
  if c = '"' then [0x5C, 0x22]
  else if c = '\\' then [0x5C, 0x5C]
  else if c = '\n' then [0x5C, 0x6E]
  else if c = '\r' then [0x5C, 0x72]
  else if c = '\t' then [0x5C, 0x74]
  else if n < 0x20 then [0x5C, 0x75, 0x30, 0x30, hexByteDigit (n / 16), hexByteDigit (n % 16)]
  else if c = '<' then [0x5C, 0x75, 0x30, 0x30, 0x33, 0x63]
  else if c = '>' then [0x5C, 0x75, 0x30, 0x30, 0x33, 0x65]
  else if c = '&' then [0x5C, 0x75, 0x30, 0x30, 0x32, 0x36]
  else if n = 0x2028 then [0x5C, 0x75, 0x32, 0x30, 0x32, 0x38]
  else if n = 0x2029 then [0x5C, 0x75, 0x32, 0x30, 0x32, 0x39]
  else utf8Bytes c

/-- Marshalled JSON string literal, quotes included. -/
def jsonEscapeString (s : String) : Bytes :=
  0x22 :: s.data.foldr (fun c acc => jsonEscapeChar c ++ acc) [0x22]

mutual

/-- Go json.Marshal of a decoded interface value (numbers keep their source
literal under the number abstraction documented at Json.num). -/
def jsonMarshal : Json → Bytes
  | .null => strBytes "null"
  | .boolean true => strBytes "true"
  | .boolean false => strBytes "false"
  | .num lit => strBytes lit
  | .str s => jsonEscapeString s
  | .arr es => 0x5B :: (jsonMarshalElems es ++ [0x5D])
  | .obj fs => 0x7B :: (jsonMarshalFields fs ++ [0x7D])
termination_by structural j => j

/-- Comma-separated marshalled array elements. -/
def jsonMarshalElems : JsonElems → Bytes
  | .nil => []
  | .cons h t =>
    let tailBytes := jsonMarshalElems t
    jsonMarshal h ++ (match t with | .nil => [] | .cons _ _ => 0x2C :: tailBytes)
termination_by structural es => es

/-- Comma-separated marshalled object members. -/
def jsonMarshalFields : JsonFields → Bytes
  | .nil => []
  | .cons k v t =>
    let tailBytes := jsonMarshalFields t
    jsonEscapeString k ++ 0x3A :: jsonMarshal v ++
      (match t with | .nil => [] | .cons _ _ _ => 0x2C :: tailBytes)
termination_by structural fs => fs

end

/-! JSON Pointer resolution (RFC 6901), the semantics of the
github.com/kaptinlin/jsonpointer library function GetByPointer used by the
resolver. -/

/-- Token unescaping: ~1 becomes a slash, ~0 becomes a tilde. -/
def ptrUnescape : List Char → List Char
  | '~' :: '1' :: rest => '/' :: ptrUnescape rest
  | '~' :: '0' :: rest => '~' :: ptrUnescape rest
  | c :: rest => c :: ptrUnescape rest
  | [] => []

/-- Split the character list on slashes into reference tokens. -/
def splitSlashTokens : List Char → List (List Char)
  | [] => [[]]
  | '/' :: rest => [] :: splitSlashTokens rest
  | c :: rest =>
    match splitSlashTokens rest with
    | t :: ts => (c :: t) :: ts
    | [] => [[c]]

/-- Array index token: digits with no leading zero (except "0" itself). -/
def parseArrayIndex : List Char → Option Nat
  | ['0'] => some 0
  | cs =>
    if cs ≠ [] && cs.all Char.isDigit && cs.head? ≠ some '0' then
      some (cs.foldl (fun a c => a * 10 + (c.toNat - 48)) 0)
    else none

/-- Navigation of a token path through a JSON document. -/
def jsonPointerResolve : Json → List (List Char) → Except String Json
  | doc, [] => .ok doc
  | doc, tok :: rest =>
    let key := String.mk (ptrUnescape tok)
    match doc with
    | .obj fields =>
      (match jsonObjFind fields key with
       | some v => jsonPointerResolve v rest
       | none => .error ("key not found: " ++ goQuote key))
    | .arr elems =>
      (match parseArrayIndex (ptrUnescape tok) with
       | some i =>
         match jsonArrGet elems i with
         | some v => jsonPointerResolve v rest
         | none => .error ("index out of range: " ++ goQuote key)
       | none => .error ("invalid array index: " ++ goQuote key))
    | _ => .error ("cannot resolve token against non-container value: " ++ goQuote key)

/-- GetByPointer: the empty pointer denotes the whole document; otherwise
the pointer must start with a slash and is split into tokens. -/
def jsonPointerGet (doc : Json) (pointer : String) : Except String Json :=
  match pointer.data with
  | [] => .ok doc
  | '/' :: rest => jsonPointerResolve doc (splitSlashTokens rest)
  | _ => .error ("invalid JSON pointer: " ++ goQuote pointer)

/-! The GSM resolver (secret_materializer_gsm.go, newest revision). -/

/-- Go strings.HasPrefix(s, "/"). -/
def startsWithSlash (s : String) : Bool :=
  match s.data with
  | c :: _ => c == '/'
  | [] => false

/-- Modelled from the spec: the package-level secretKeyRegex pattern. Its
definition is not under src (only its uses in the resolver and its tests
are); the spec fixes the literal target-key syntax as this pattern. -/
def secretKeyRegexString : String := "^[A-Za-z0-9._-]+$"

/-- Characters admitted by the target-key pattern. -/
def secretKeyChar (c : Char) : Bool :=
  ('A' ≤ c && c ≤ 'Z') || ('a' ≤ c && c ≤ 'z') || ('0' ≤ c && c ≤ '9') ||
  c == '.' || c == '_' || c == '-'

/-- Whole-string match of the anchored target-key pattern
(secretKeyRegex.MatchString). -/
def secretKeyMatches (s : String) : Bool :=
  s.data ≠ [] && s.data.all secretKeyChar

/-- Modelled from the spec: the constructor newKeyedSecretPayload, whose
definition is not under src (its tests require a payload carrying the given
key and value when the key matches the target-key syntax, and an error for
an empty or non-matching key, which the spec calls a terminal validation
error). -/
def newKeyedSecretPayload (key : String) (value : Bytes) :
    Except String KeyedSecretPayload :=
  if secretKeyMatches key then .ok ⟨key, value⟩
  else .error ("key " ++ goQuote key ++ " does not match " ++ goQuote secretKeyRegexString)

/-- Translation of extractStringAtPointer: resolve the pointer and require
a JSON string. -/
def extractStringAtPointer (payload : Json) (pointer : String) : Except String String :=
  match jsonPointerGet payload pointer with
  | .error err => .error err
  | .ok val =>
    match val with
    | .str s => .ok s
    | _ => .error ("value at " ++ goQuote pointer ++ " is not a string")

/-- Loop body of mapKeysToSecretKeyMappings over the decoded payload: one
keyed payload per mapping, in list order, stopping at the first error. -/
def processMappings (payload : Json) : List SecretKeyMapping → Except String (List KeyedSecretPayload)
  | [] => .ok []
  | mapping :: rest =>
    if goTrimSpace mapping.key = "" then .error "mapping key cannot be empty"
    else if goTrimSpace mapping.value = "" then .error "mapping value cannot be empty"
    else
      let targetKeyResult : Except String String :=
        if startsWithSlash mapping.key then
          match extractStringAtPointer payload mapping.key with
          | .error err => .error ("resolve key pointer " ++ goQuote mapping.key ++ ": " ++ err)
          | .ok resolvedKey =>
            if !secretKeyMatches resolvedKey then
              .error ("resolved key " ++ goQuote resolvedKey ++ " does not match " ++
                goQuote secretKeyRegexString)
            else .ok resolvedKey
        else .ok mapping.key
      match targetKeyResult with
      | .error err => .error err
      | .ok targetKey =>
        match jsonPointerGet payload mapping.value with
        | .error err => .error ("extract " ++ goQuote mapping.value ++ ": " ++ err)
        | .ok value =>
          let encoded := jsonMarshal value
          match newKeyedSecretPayload targetKey encoded with
          | .error err => .error ("validate key " ++ goQuote targetKey ++ ": " ++ err)
          | .ok p =>
            match processMappings payload rest with
            | .error err => .error err
            | .ok more => .ok (p :: more)

/-- Translation of mapKeysToSecretKeyMappings: decode the payload as JSON
once, then expand each mapping (json.Marshal of a decoded value cannot
fail, so the marshal error branch of the source is dead in the model). -/
def mapKeysToSecretKeyMappings (data : Bytes) (mappings : List SecretKeyMapping) :
    Except String (List KeyedSecretPayload) :=
  match jsonUnmarshal data with
  | .error err => .error ("decode secret payload as JSON: " ++ err)
  | .ok payload => processMappings payload mappings

/-- The Secret Manager AccessSecretVersion call, as an oracle from resource
name to raw payload bytes or an upstream error. -/
abbrev GsmAccess := String → Except String Bytes

/-- Translation of accessSecretPayload: perform the access and wrap an
upstream failure with the resource name. -/
def accessSecretPayload (access : GsmAccess) (name : String) : Except String Bytes :=
  match access name with
  | .error err => .error ("AccessSecretVersion(" ++ name ++ "): " ++ err)
  | .ok d => .ok d

/-- Error wrap applied by fetchSecretEntriesPayloads to a failed fetch. -/
def fetchWrapError (e : GSMSecretEntry) (err : String) : String :=
  "fetch payload for key " ++ goQuote e.key ++ " (project=" ++ goQuote e.projectID ++
    ", secret=" ++ goQuote e.secretID ++ ", version=" ++ goQuote e.version ++ "): " ++ err

/-- One iteration of the fetchSecretEntriesPayloads loop: XOR validation of
key against keys, fetch of the resource name built with the version
verbatim, then materialization in literal-key or key-mapping mode. -/
def processEntry (access : GsmAccess) (e : GSMSecretEntry) :
    Except String (List KeyedSecretPayload) :=
  if e.key != "" && e.keys.length > 0 then
    .error "invalid GSMSecret entry: cannot set both key and keys"
  else
    match accessSecretPayload access (entryResourceName e) with
    | .error err => .error (fetchWrapError e err)
    | .ok data =>
      if e.key != "" then
        match newKeyedSecretPayload e.key data with
        | .error err => .error ("validate key " ++ goQuote e.key ++ ": " ++ err)
        | .ok p => .ok [p]
      else if e.keys.length > 0 then
        match mapKeysToSecretKeyMappings data e.keys with
        | .error err => .error ("map key mappings for secret " ++ goQuote e.secretID ++ ": " ++ err)
        | .ok ps => .ok ps
      else .error "invalid GSMSecret entry: either key or keys must be set"

/-- Translation of fetchSecretEntriesPayloads: entries processed in order,
their payloads concatenated, stopping at the first error. -/
def fetchSecretEntriesPayloads (access : GsmAccess) :
    List GSMSecretEntry → Except String (List KeyedSecretPayload)
  | [] => .ok []
  | e :: rest =>
    match processEntry access e with
    | .error err => .error err
    | .ok ps =>
      match fetchSecretEntriesPayloads access rest with
      | .error err => .error err
      | .ok more => .ok (ps ++ more)

/-- Translation of resolvePayloads as a state transformer on the
materializer: the Secret Manager client construction (trusted-subsystem or
WIF credential exchange) is an oracle, and the payloads field is assigned
only after every entry has been fetched and validated. The second
component is the returned error, none on success. -/
def resolvePayloads (m : SecretMaterializer) (newGsmClient : Except String Unit)
    (access : GsmAccess) : SecretMaterializer × Option String :=
  if m.gsmSecret.spec.secrets.length = 0 then (m, none)
  else
    match newGsmClient with
    | .error err => (m, some err)
    | .ok _ =>
      match fetchSecretEntriesPayloads access m.gsmSecret.spec.secrets with
      | .error err => (m, some err)
      | .ok results => ({ m with payloads := results }, none)

/-! The Kubernetes Secret builder and the target Secret object model. -/

/-- Target Secret data map (map[string][]byte). -/
abbrev SecretData := List (String × Bytes)

/-- Go map assignment m[k] = v on an association map with unique keys. -/
def assocAssign {α : Type} : List (String × α) → String → α → List (String × α)
  | [], k, v => [(k, v)]
  | p :: rest, k, v => if p.1 = k then (k, v) :: rest else p :: assocAssign rest k v

/-- Go map read with presence flag abstracted: some value when present. -/
def dataLookup {α : Type} : List (String × α) → String → Option α
  | [], _ => none
  | p :: rest, k => if p.1 = k then some p.2 else dataLookup rest k

/-- corev1.SecretTypeOpaque (a SecretType is a string tag). -/
def secretTypeOpaque : String := "Opaque"

/-- metav1.OwnerReference, with the fields SetControllerReference writes. -/
structure OwnerReference where
  apiVersion : String
  kind : String
  name : String
  uid : String
  controller : Bool
  blockOwnerDeletion : Bool
deriving DecidableEq, Repr

/-- The fields of a corev1.Secret that the controller reads or writes. The
field ns is metadata.namespace; secretType is the Type tag. -/
structure CoreSecret where
  name : String
  ns : String
  labels : StrMap := []
  annotations : StrMap := []
  ownerReferences : List OwnerReference := []
  resourceVersion : String := ""
  secretType : String := ""
  data : SecretData := []
deriving DecidableEq, Repr

/-- Loop of buildOpaqueSecret over the payloads: Go map assignment in list
order into the accumulated data map, failing on an empty key. -/
def buildSecretData : List KeyedSecretPayload → SecretData → Except String SecretData
  | [], acc => .ok acc
  | p :: rest, acc =>
    if p.key = "" then .error "payload has empty key"
    else buildSecretData rest (assocAssign acc p.key p.value)

/-- Translation of buildOpaqueSecret: fold the payloads into the data map
and stamp the identity from the target reference and the GSMSecret
namespace, with the Opaque type tag. The nil-receiver guards of the source
have no counterpart on values. -/
def buildOpaqueSecret (m : SecretMaterializer) : Except String CoreSecret :=
  match buildSecretData m.payloads [] with
  | .error err => .error err
  | .ok data =>
    .ok { name := m.gsmSecret.spec.targetSecret.name,
          ns := m.gsmSecret.meta.ns,
          secretType := secretTypeOpaque,
          data := data }

/-! Status conditions (setStatusCondition in gsmsecret_controller.go). -/

/-- Condition type written by the controller. -/
def conditionTypeReady : String := "Ready"

/-- The find-and-update loop of setStatusCondition: replace the first
condition of type Ready, preserving its lastTransitionTime when the status
value is unchanged; none when no Ready condition exists. -/
def upsertReadyCondition (newCond : Condition) : List Condition → Option (List Condition)
  | [] => none
  | c :: rest =>
    if c.condType = conditionTypeReady then
      some (({ newCond with
        lastTransitionTime :=
          if c.status = newCond.status then c.lastTransitionTime
          else newCond.lastTransitionTime }) :: rest)
    else
      match upsertReadyCondition newCond rest with
      | some cs => some (c :: cs)
      | none => none

/-- Translation of setStatusCondition: bump the status observedGeneration,
build the new Ready condition stamped with the instant now (metav1.Now()),
and update or append it. The trailing API write is outside the model. -/
def setStatusCondition (gsm : GSMSecret) (status : ConditionStatus)
    (reason message : String) (now : Nat) : GSMSecret :=
  let newCond : Condition :=
    { condType := conditionTypeReady
      status := status
      observedGeneration := gsm.meta.generation
      lastTransitionTime := now
      reason := reason
      message := message }
  let conds :=
    match upsertReadyCondition newCond gsm.status.conditions with
    | some cs => cs
    | none => gsm.status.conditions ++ [newCond]
  { gsm with status := { observedGeneration := gsm.meta.generation, conditions := conds } }

/-! Create-or-update-or-adopt (applySecret in gsmsecret_controller.go),
with the controller-runtime SetControllerReference semantics. -/

/-- The owner identity used to stamp a controller reference: the GSMSecret
object together with its scheme-resolved apiVersion and kind. -/
structure OwnerIdentity where
  apiVersion : String
  kind : String
  name : String
  ns : String
  uid : String
deriving DecidableEq, Repr

/-- Characters before the first slash, if a slash occurs. -/
def apiGroupChars : List Char → Option (List Char)
  | [] => none
  | '/' :: _ => some []
  | c :: rest => (apiGroupChars rest).map (c :: ·)

/-- Group of an apiVersion string (schema.ParseGroupVersion): the part
before the slash, or the empty group when there is none. -/
def apiGroupOf (apiVersion : String) : String :=
  match apiGroupChars apiVersion.data with
  | some g => String.mk g
  | none => ""

/-- controller-runtime referSameObject: same group, kind and name. -/
def referSameObject (a b : OwnerReference) : Bool :=
  apiGroupOf a.apiVersion = apiGroupOf b.apiVersion && a.kind = b.kind && a.name = b.name

/-- The controller reference that SetControllerReference builds. -/
def mkControllerRef (owner : OwnerIdentity) : OwnerReference :=
  { apiVersion := owner.apiVersion
    kind := owner.kind
    name := owner.name
    uid := owner.uid
    controller := true
    blockOwnerDeletion := true }

/-- metav1.GetControllerOf: the first owner reference flagged controller. -/
def getControllerOf : List OwnerReference → Option OwnerReference
  | [] => none
  | r :: rest => if r.controller then some r else getControllerOf rest

/-- controller-runtime upsertOwnerRef: replace the first reference to the
same object, else append. -/
def upsertOwnerRef (ref : OwnerReference) : List OwnerReference → List OwnerReference
  | [] => [ref]
  | r :: rest => if referSameObject r ref then ref :: rest else r :: upsertOwnerRef ref rest

/-- controller-runtime SetControllerReference: reject a cross-namespace
owner and an object already controlled by a different owner, else upsert
the controller reference. -/
def setControllerReference (owner : OwnerIdentity) (obj : CoreSecret) :
    Except String CoreSecret :=
  if owner.ns != "" && owner.ns != obj.ns then
    .error "cross-namespace owner references are disallowed"
  else
    let ref := mkControllerRef owner
    match getControllerOf obj.ownerReferences with
    | some existing =>
      if referSameObject existing ref then
        .ok { obj with ownerReferences := upsertOwnerRef ref obj.ownerReferences }
      else .error "object is already owned by another controller"
    | none => .ok { obj with ownerReferences := upsertOwnerRef ref obj.ownerReferences }

/-- Outcome of applySecret: the object passed to Create or to Update. -/
inductive ApplyResult where
  | created (s : CoreSecret)
  | updated (s : CoreSecret)
deriving DecidableEq, Repr

/-- Translation of applySecret. The existing argument is the result of the
Get for the desired name/namespace: none models IsNotFound (create path);
some models the found object (adopt-and-update path), on which the owner
reference is stamped and only Data and Type are overwritten. -/
def applySecret (owner : OwnerIdentity) (desired : CoreSecret)
    (existing : Option CoreSecret) : Except String ApplyResult :=
  match setControllerReference owner desired with
  | .error err => .error ("failed to set controller reference: " ++ err)
  | .ok desired1 =>
    match existing with
    | none => .ok (.created desired1)
    | some ex =>
      match setControllerReference owner ex with
      | .error err => .error ("failed to set controller reference on existing secret: " ++ err)
      | .ok ex1 => .ok (.updated { ex1 with data := desired1.data, secretType := desired1.secretType })

/-! The two event predicates (gsmsecret_controller.go). -/

/-- Annotation keys whose changes trigger reconciliation. -/
def relevantAnnotations : List String :=
  [AnnotationKSA, AnnotationGSA, AnnotationWIFAudience, AnnotationRelease]

/-- Translation of gsmSecretChangedPredicate.Update on two GSMSecret
objects: generation change, else any relevant annotation value change
(missing keys index to the empty string). -/
def gsmSecretChangedUpdate (oldObj newObj : GSMSecret) : Bool :=
  if oldObj.meta.generation != newObj.meta.generation then true
  else
    relevantAnnotations.any (fun key =>
      StrMap.get oldObj.meta.annotations key != StrMap.get newObj.meta.annotations key)

/-- Translation of secretDataEqual: equal sizes and every entry of a
present in b with byte-equal value. -/
def secretDataEqual (a b : SecretData) : Bool :=
  if a.length != b.length then false
  else
    a.all (fun p =>
      match dataLookup b p.1 with
      | some bv => p.2 == bv
      | none => false)

/-- Translation of secretDataChangedPredicate.Update on two Secret objects
(the non-Secret type-assertion fallbacks of the source always reconcile and
are outside this typed model). -/
def secretDataChangedUpdate (oldSecret newSecret : CoreSecret) : Bool :=
  if oldSecret.secretType != newSecret.secretType then true
  else if !(secretDataEqual oldSecret.data newSecret.data) then true
  else false

/-- Specification view of the builder fold: the value written last for a
key across the payload list, in list order (Go map assignment makes the
last write win). -/
def lastWrittenValue (payloads : List KeyedSecretPayload) (k : String) : Option Bytes :=
  payloads.foldl (fun acc p => if p.key = k then some p.value else acc) none

/-- Unique-keys predicate of an association map (every Go map satisfies
it). -/
def NodupKeys {α : Type} (m : List (String × α)) : Prop := (m.map Prod.fst).Nodup

instance {α : Type} (m : List (String × α)) : Decidable (NodupKeys m) :=
  inferInstanceAs (Decidable (List.Nodup (m.map Prod.fst)))

/-! Concrete fixtures used by witnesses and counterexamples. -/

/-- Environment with only KSA set, as in TestGetKSAFromEnvOverridesAnnotation. -/
def envC1 : GoEnv := fun k => if k = "KSA" then "env-ksa" else ""

/-- GSMSecret carrying a KSA override annotation. -/
def gsmC1 : GSMSecret :=
  { meta := { annotations := [(AnnotationKSA, "annotated-ksa")] }
    spec := { targetSecret := ⟨"t"⟩, secrets := [] } }

/-- Entry with an empty version selector. -/
def entryC2 : GSMSecretEntry :=
  { key := "K", keys := [], projectID := "p", secretID := "s", version := "" }

/-- Oracle echoing the requested resource name back as the payload, which
makes the fetched name observable in the result. -/
def accessC2 : GsmAccess := fun name => .ok (strBytes name)

/-- Entry with a concrete numeric version. -/
def entryC2w : GSMSecretEntry :=
  { key := "K", keys := [], projectID := "p", secretID := "s", version := "1" }

/-- Oracle returning a fixed payload. -/
def accessC2w : GsmAccess := fun _ => .ok (strBytes "value")

/-- Environment requesting a 300 second token lifetime. -/
def envC9 : GoEnv := fun k => if k = "TOKEN_EXP_SECONDS" then "300" else ""

/-- A stored Ready=True condition from an earlier reconcile. -/
def readyCondC3 : Condition :=
  { condType := "Ready"
    status := .conditionTrue
    observedGeneration := 1
    lastTransitionTime := 100
    reason := "Synced"
    message := "Previous sync" }

/-- GSMSecret at generation 2 carrying the stored Ready condition. -/
def gsmC3 : GSMSecret :=
  { meta := { name := "test-gsmsecret", ns := "default", generation := 2 }
    spec := { targetSecret := ⟨"my-secret"⟩, secrets := [] }
    status := { observedGeneration := 1, conditions := [readyCondC3] } }

/-- Owner identity of the reconciled GSMSecret. -/
def ownerC4 : OwnerIdentity :=
  ⟨"secrets.gsm-operator.io/v1alpha1", "GSMSecret", "test-gsmsecret", "default", "test-uid-123"⟩

/-- Pre-existing, unowned Secret with labels and annotations. -/
def exC4 : CoreSecret :=
  { name := "my-secret"
    ns := "default"
    labels := [("custom-label", "should-be-preserved")]
    annotations := [("custom-annotation", "should-also-be-preserved")]
    secretType := "Opaque"
    data := [("KEY", strBytes "value")] }

/-- Desired Secret built by the materializer. -/
def desiredC4 : CoreSecret :=
  { name := "my-secret"
    ns := "default"
    secretType := "Opaque"
    data := [("KEY", strBytes "updated-value")] }

/-- Expected update object: the existing Secret adopted and with data and
type overwritten. -/
def updC4 : CoreSecret :=
  { exC4 with
    ownerReferences := [mkControllerRef ownerC4]
    data := desiredC4.data
    secretType := desiredC4.secretType }

/-- Materializer holding duplicate payload keys K=v1 then K=v2. -/
def mC5 : SecretMaterializer :=
  { gsmSecret :=
      { meta := { name := "test-gsmsecret", ns := "test-namespace" }
        spec := { targetSecret := ⟨"my-target-secret"⟩, secrets := [] } }
    payloads := [⟨"K", strBytes "v1"⟩, ⟨"OTHER_KEY", strBytes "other-value"⟩,
      ⟨"K", strBytes "v2"⟩] }

/-- The built Secret expected from the duplicate-key fixture. -/
def dC5 : CoreSecret :=
  { name := "my-target-secret"
    ns := "test-namespace"
    secretType := "Opaque"
    data := [("K", strBytes "v2"), ("OTHER_KEY", strBytes "other-value")] }

/-- Shared data map of the metadata-only Secret update. -/
def dataC8 : SecretData := [("key", strBytes "value")]

/-- Target Secret before a metadata-only write. -/
def oldSecC8 : CoreSecret :=
  { name := "test", ns := "default", resourceVersion := "1"
    secretType := "Opaque", data := dataC8 }

/-- Target Secret after a metadata-only write (only resourceVersion
bumped). -/
def newSecC8 : CoreSecret :=
  { name := "test", ns := "default", resourceVersion := "2"
    secretType := "Opaque", data := dataC8 }

/-- Target Secret with the data value changed. -/
def newSecC8b : CoreSecret :=
  { name := "test", ns := "default", resourceVersion := "2"
    secretType := "Opaque", data := [("key", strBytes "new-value")] }

/-- Decoded form of the example payload of the spec scenario. -/
def payloadC6 : Json := .obj (.cons "k" (.str "ENV_KEY") (.cons "v" (.str "val") .nil))

/-- Materializer whose GSMSecret has an invalid entry (both key and keys
set) and whose payloads field holds a prior value. -/
def mC10 : SecretMaterializer :=
  { gsmSecret :=
      { meta := { name := "test-gsmsecret", ns := "default" }
        spec := { targetSecret := ⟨"target"⟩
                  secrets := [{ key := "K"
                                keys := [⟨"a", "/b"⟩]
                                projectID := "p"
                                secretID := "s"
                                version := "1" }] } }
    payloads := [⟨"OLD", strBytes "old"⟩] }

/-! Theorems. -/

/-- C1, as stated by the spec sentence, is false on the code: getKSA
consults the KSA environment variable before the override annotation. At
this concrete input the annotation is non-empty with value annotated-ksa,
yet getKSA does not return it (it returns the environment value env-ksa),
which the repository test TestGetKSAFromEnvOverridesAnnotation asserts
deliberately. -/
theorem getKSA_claim_counterexample :
    goTrimSpace (StrMap.get gsmC1.meta.annotations AnnotationKSA) = "annotated-ksa" ∧
    getKSA envC1 gsmC1 = "env-ksa" ∧ getKSA envC1 gsmC1 ≠ "annotated-ksa" := by
  refine ⟨by rfl, by rfl, by decide⟩

/-- C1 (amended): the local identity name is resolved with the precedence
the code and its tests implement: the KSA environment variable first, else
the trimmed KSA override annotation when non-empty, else the hardcoded
default name. -/
theorem getKSA_precedence (env : GoEnv) (gsm : GSMSecret) :
    (env "KSA" ≠ "" → getKSA env gsm = env "KSA") ∧
    (env "KSA" = "" →
      goTrimSpace (StrMap.get gsm.meta.annotations AnnotationKSA) ≠ "" →
      getKSA env gsm = goTrimSpace (StrMap.get gsm.meta.annotations AnnotationKSA)) ∧
    (env "KSA" = "" →
      goTrimSpace (StrMap.get gsm.meta.annotations AnnotationKSA) = "" →
      getKSA env gsm = defaultKSAName) := by
  unfold getKSA
  refine ⟨fun h => ?_, fun h h2 => ?_, fun h h2 => ?_⟩ <;> simp_all [bne]

/-- Witness for the amended C1 at the concrete test input: the environment
value wins. -/
theorem getKSA_precedence_witness :
    envC1 "KSA" ≠ "" ∧ getKSA envC1 gsmC1 = envC1 "KSA" :=
  ⟨by decide, (getKSA_precedence envC1 gsmC1).1 (by decide)⟩

/-- C2, as stated, is false on the code: the resolver
fetchSecretEntriesPayloads formats the entry version verbatim into the
resource name, with no defaulting of an empty version to latest. With an
oracle that echoes the requested name, the entry with empty version is
fetched as projects/p/secrets/s/versions/ (empty final segment), not as
the latest-version name. -/
theorem version_default_claim_counterexample :
    fetchSecretEntriesPayloads accessC2 [entryC2] =
      .ok [⟨"K", strBytes "projects/p/secrets/s/versions/"⟩] ∧
    strBytes "projects/p/secrets/s/versions/" ≠
      strBytes "projects/p/secrets/s/versions/latest" := by
  refine ⟨by rfl, by decide⟩

/-- C2 (amended): the resolver uses the version selector of the entry
verbatim when constructing the fetched resource name (an empty version
yields an empty final segment); only the legacy standalone helper
AccessSecretPayload defaults an empty version to latest. For a literal-key
entry the resolver consults the oracle exactly at entryResourceName. -/
theorem fetch_uses_version_verbatim (e : GSMSecretEntry) (access : GsmAccess) (data : Bytes)
    (hkey : e.key ≠ "") (hkeys : e.keys = [])
    (hacc : access (entryResourceName e) = .ok data) :
    fetchSecretEntriesPayloads access [e] =
      (match newKeyedSecretPayload e.key data with
       | .ok p => .ok [p]
       | .error err => .error ("validate key " ++ goQuote e.key ++ ": " ++ err)) ∧
    (∀ p s : String, accessSecretPayloadName p s "" = accessSecretPayloadName p s "latest") := by
  constructor
  · unfold fetchSecretEntriesPayloads processEntry accessSecretPayload
    rw [hacc, hkeys]
    cases h : newKeyedSecretPayload e.key data <;>
      simp [h, hkey, fetchSecretEntriesPayloads]
  · intro p s
    unfold accessSecretPayloadName
    simp

/-- Witness for the amended C2 at a concrete entry with version 1: the
oracle is consulted at the verbatim name and the payload is keyed. -/
theorem fetch_uses_version_verbatim_witness :
    entryC2w.key ≠ "" ∧ entryC2w.keys = [] ∧
    accessC2w (entryResourceName entryC2w) = .ok (strBytes "value") ∧
    fetchSecretEntriesPayloads accessC2w [entryC2w] =
      (match newKeyedSecretPayload entryC2w.key (strBytes "value") with
       | .ok p => .ok [p]
       | .error err => .error ("validate key " ++ goQuote entryC2w.key ++ ": " ++ err)) :=
  ⟨by decide, by rfl, by rfl,
    (fetch_uses_version_verbatim entryC2w accessC2w (strBytes "value")
      (by decide) (by rfl) (by rfl)).1⟩

/-- C9: getTokenExpSeconds clamps rather than errors: an environment value
parsing as a positive integer below the 600 second minimum yields exactly
the minimum, a value at or above the minimum is returned verbatim, and an
unset, unparsable or zero value yields the package default, which equals
the minimum. -/
theorem getTokenExpSeconds_clamps (env : GoEnv) (p : Nat) :
    (goParseUint64 (env "TOKEN_EXP_SECONDS") = some p → 0 < p → p < minTokenExpSeconds →
      getTokenExpSeconds env = minTokenExpSeconds) ∧
    (goParseUint64 (env "TOKEN_EXP_SECONDS") = some p → minTokenExpSeconds ≤ p →
      getTokenExpSeconds env = p) ∧
    ((env "TOKEN_EXP_SECONDS" = "" ∨ goParseUint64 (env "TOKEN_EXP_SECONDS") = none ∨
      goParseUint64 (env "TOKEN_EXP_SECONDS") = some 0) →
      getTokenExpSeconds env = defaultTokenExpSeconds) ∧
    defaultTokenExpSeconds = minTokenExpSeconds := by
  have hempty : goParseUint64 "" = none := by rfl
  refine ⟨fun hp hpos hlt => ?_, fun hp hge => ?_, fun h => ?_, rfl⟩
  · have hne : env "TOKEN_EXP_SECONDS" ≠ "" := by
      intro h; rw [h, hempty] at hp; cases hp
    unfold getTokenExpSeconds
    simp [hne, hp, hpos, hlt]
  · have hne : env "TOKEN_EXP_SECONDS" ≠ "" := by
      intro h; rw [h, hempty] at hp; cases hp
    have hpos : 0 < p := lt_of_lt_of_le (by norm_num [minTokenExpSeconds]) hge
    unfold getTokenExpSeconds
    simp [hne, hp, hpos, Nat.not_lt.mpr hge]
  · rcases h with h | h | h
    · unfold getTokenExpSeconds
      simp [h]
    · by_cases hne : env "TOKEN_EXP_SECONDS" = ""
      · unfold getTokenExpSeconds; simp [hne]
      · unfold getTokenExpSeconds; simp [hne, h]
    · by_cases hne : env "TOKEN_EXP_SECONDS" = ""
      · unfold getTokenExpSeconds; simp [hne]
      · unfold getTokenExpSeconds; simp [hne, h]

/-- Witness for C9 at the concrete clamp test input of the repository
(TOKEN_EXP_SECONDS=300 yields 600). -/
theorem getTokenExpSeconds_clamps_witness :
    goParseUint64 (envC9 "TOKEN_EXP_SECONDS") = some 300 ∧ 0 < 300 ∧
    300 < minTokenExpSeconds ∧ getTokenExpSeconds envC9 = minTokenExpSeconds :=
  ⟨by rfl, by decide, by decide,
    (getTokenExpSeconds_clamps envC9 300).1 (by rfl) (by decide) (by decide)⟩

/-- Helper: the find-and-update loop hits the first Ready condition and
leaves every other condition in place, preserving the stored transition
time exactly when the status value is unchanged. -/
theorem upsertReady_append (newCond : Condition) (pre rest : List Condition) (c : Condition)
    (hpre : ∀ d ∈ pre, d.condType ≠ conditionTypeReady)
    (hc : c.condType = conditionTypeReady) :
    upsertReadyCondition newCond (pre ++ c :: rest) =
      some (pre ++ ({ newCond with
        lastTransitionTime :=
          if c.status = newCond.status then c.lastTransitionTime
          else newCond.lastTransitionTime }) :: rest) := by
  induction pre with
  | nil => simp [upsertReadyCondition, hc]
  | cons d ds ih =>
    have hd : d.condType ≠ conditionTypeReady := hpre d (by simp)
    have ih2 := ih (fun x hx => hpre x (by simp [hx]))
    simp [upsertReadyCondition, hd, ih2]

/-- C3: status writes preserve the Ready lastTransitionTime exactly when
the written status equals the stored one: the stored Ready condition (the
first of its type) is replaced by a condition carrying the new reason,
message and observedGeneration, whose lastTransitionTime is the stored one
when the status is unchanged and the current instant when it changed; all
other conditions are untouched. -/
theorem setStatusCondition_transition_time
    (gsm : GSMSecret) (status : ConditionStatus) (reason message : String) (now : Nat)
    (pre rest : List Condition) (c : Condition)
    (hsplit : gsm.status.conditions = pre ++ c :: rest)
    (hpre : ∀ d ∈ pre, d.condType ≠ conditionTypeReady)
    (hc : c.condType = conditionTypeReady) :
    (setStatusCondition gsm status reason message now).status.conditions =
      pre ++ ({ condType := conditionTypeReady
                status := status
                observedGeneration := gsm.meta.generation
                lastTransitionTime :=
                  if c.status = status then c.lastTransitionTime else now
                reason := reason
                message := message } : Condition) :: rest ∧
    (setStatusCondition gsm status reason message now).status.observedGeneration =
      gsm.meta.generation := by
  simp only [setStatusCondition, hsplit, upsertReady_append _ pre rest c hpre hc]
  simp

/-- Witness for C3: a stored Ready=True condition rewritten with
Ready=True keeps its transition instant while reason, message and
observedGeneration are replaced. -/
theorem setStatusCondition_transition_time_witness :
    gsmC3.status.conditions = [] ++ readyCondC3 :: [] ∧
    readyCondC3.condType = conditionTypeReady ∧
    (setStatusCondition gsmC3 .conditionTrue "Synced" "New sync message" 500).status.conditions =
      [] ++ ({ condType := conditionTypeReady
               status := .conditionTrue
               observedGeneration := gsmC3.meta.generation
               lastTransitionTime :=
                 if readyCondC3.status = .conditionTrue then readyCondC3.lastTransitionTime
                 else 500
               reason := "Synced"
               message := "New sync message" } : Condition) :: [] :=
  ⟨rfl, rfl,
    (setStatusCondition_transition_time gsmC3 .conditionTrue "Synced" "New sync message" 500
      [] [] readyCondC3 rfl (by simp) rfl).1⟩

/-- Helper: a successful SetControllerReference changes exactly the owner
references, by upserting the controller reference of the owner. -/
theorem setControllerReference_ok (owner : OwnerIdentity) (obj res : CoreSecret)
    (h : setControllerReference owner obj = .ok res) :
    res = { obj with
      ownerReferences := upsertOwnerRef (mkControllerRef owner) obj.ownerReferences } := by
  simp only [setControllerReference] at h
  split at h
  · cases h
  · split at h
    · split at h
      · cases h; rfl
      · cases h
    · cases h; rfl

/-- C4: when applySecret updates a pre-existing Secret, the object sent to
the update is the existing object with the controller reference of the
owner upserted and only Data and Type overwritten from the desired object:
name, namespace, labels, annotations and resourceVersion are passed
through unchanged, and a previously unowned object gains exactly the one
owner reference. -/
theorem applySecret_update_frame (owner : OwnerIdentity) (desired ex upd : CoreSecret)
    (h : applySecret owner desired (some ex) = .ok (.updated upd)) :
    upd.name = ex.name ∧ upd.ns = ex.ns ∧ upd.labels = ex.labels ∧
    upd.annotations = ex.annotations ∧ upd.resourceVersion = ex.resourceVersion ∧
    upd.data = desired.data ∧ upd.secretType = desired.secretType ∧
    upd.ownerReferences = upsertOwnerRef (mkControllerRef owner) ex.ownerReferences ∧
    (ex.ownerReferences = [] → upd.ownerReferences = [mkControllerRef owner]) := by
  simp only [applySecret] at h
  cases h1 : setControllerReference owner desired with
  | error e => simp [h1] at h
  | ok d1 =>
    simp only [h1] at h
    cases h2 : setControllerReference owner ex with
    | error e => simp [h2] at h
    | ok e1 =>
      simp only [h2, Except.ok.injEq, ApplyResult.updated.injEq] at h
      have hd1 := setControllerReference_ok owner desired d1 h1
      have he1 := setControllerReference_ok owner ex e1 h2
      subst hd1 he1
      rw [← h]
      refine ⟨rfl, rfl, rfl, rfl, rfl, rfl, rfl, rfl, fun hempty => ?_⟩
      simp [hempty, upsertOwnerRef]

/-- Witness for C4 at the adoption fixture of the repository tests: the
pre-existing labels and annotations survive, data and type come from the
desired object, and exactly one controller reference is gained. -/
theorem applySecret_update_frame_witness :
    applySecret ownerC4 desiredC4 (some exC4) = .ok (.updated updC4) ∧
    updC4.labels = exC4.labels ∧ updC4.annotations = exC4.annotations ∧
    updC4.data = desiredC4.data ∧ updC4.secretType = desiredC4.secretType ∧
    updC4.ownerReferences = [mkControllerRef ownerC4] := by
  have h : applySecret ownerC4 desiredC4 (some exC4) = .ok (.updated updC4) := by rfl
  have frame := applySecret_update_frame ownerC4 desiredC4 exC4 updC4 h
  exact ⟨h, frame.2.2.1, frame.2.2.2.1, frame.2.2.2.2.2.1, frame.2.2.2.2.2.2.1,
    frame.2.2.2.2.2.2.2.2 rfl⟩

/-- Helper: lookup after a Go map assignment. -/
theorem dataLookup_assocAssign {α : Type} (m : List (String × α)) (k k1 : String) (v : α) :
    dataLookup (assocAssign m k v) k1 = if k = k1 then some v else dataLookup m k1 := by
  induction m with
  | nil =>
    by_cases h : k = k1 <;> simp [assocAssign, dataLookup, h]
  | cons p rest ih =>
    by_cases hp : p.1 = k
    · by_cases h : k = k1
      · subst h
        simp [assocAssign, dataLookup, hp]
      · have hp1 : p.1 ≠ k1 := by rw [hp]; exact h
        simp [assocAssign, dataLookup, hp, h, hp1]
    · by_cases h : k = k1
      · subst h
        simp [assocAssign, dataLookup, hp, ih]
      · by_cases hq : p.1 = k1
        · have hk1k : ¬ k1 = k := fun he => h he.symm
          simp [assocAssign, dataLookup, hp, h, hq, hk1k]
        · simp [assocAssign, dataLookup, hp, h, hq, ih]

/-- Helper: the builder loop succeeds with the map whose lookups are the
last written values, for any starting accumulator. -/
theorem buildSecretData_go (payloads : List KeyedSecretPayload) (acc d : SecretData)
    (h : buildSecretData payloads acc = .ok d) :
    ∀ k, dataLookup d k =
      payloads.foldl (fun a p => if p.key = k then some p.value else a) (dataLookup acc k) := by
  induction payloads generalizing acc with
  | nil =>
    intro k
    cases h
    simp
  | cons p rest ih =>
    intro k
    unfold buildSecretData at h
    by_cases hp : p.key = ""
    · simp [hp] at h
    · simp only [hp, if_false, ite_false] at h
      have := ih (assocAssign acc p.key p.value) h k
      rw [this]
      simp only [List.foldl_cons]
      rw [dataLookup_assocAssign]

/-- Helper: the builder loop errors exactly when some payload key is
empty, for any starting accumulator. -/
theorem buildSecretData_error_iff (payloads : List KeyedSecretPayload) (acc : SecretData) :
    buildSecretData payloads acc = .error "payload has empty key" ↔
      ∃ p ∈ payloads, p.key = "" := by
  induction payloads generalizing acc with
  | nil => simp [buildSecretData]
  | cons p rest ih =>
    by_cases hp : p.key = ""
    · simp [buildSecretData, hp]
    · simp [buildSecretData, hp, ih]

/-- C5: buildOpaqueSecret is a pure fold of the payload list in list order
with last-write-wins on duplicate keys, it errors exactly when some
payload key is the empty string, and a successfully built object takes its
name from the target reference, its namespace from the GSMSecret, and the
Opaque type. -/
theorem buildOpaqueSecret_spec (m : SecretMaterializer) :
    (buildOpaqueSecret m = .error "payload has empty key" ↔
      ∃ p ∈ m.payloads, p.key = "") ∧
    (∀ d, buildOpaqueSecret m = .ok d →
      d.name = m.gsmSecret.spec.targetSecret.name ∧
      d.ns = m.gsmSecret.meta.ns ∧
      d.secretType = secretTypeOpaque ∧
      ∀ k, dataLookup d.data k = lastWrittenValue m.payloads k) := by
  constructor
  · rw [← buildSecretData_error_iff m.payloads []]
    unfold buildOpaqueSecret
    cases h : buildSecretData m.payloads [] <;> simp [h]
  · intro d hd
    unfold buildOpaqueSecret at hd
    cases h : buildSecretData m.payloads [] with
    | error e => rw [h] at hd; cases hd
    | ok data =>
      rw [h] at hd
      cases hd
      refine ⟨rfl, rfl, rfl, fun k => ?_⟩
      have := buildSecretData_go m.payloads [] data h k
      simpa [lastWrittenValue, dataLookup] using this

/-- Witness for C5 at the duplicate-key fixture: the build succeeds, the
identity is stamped from the target reference, and the data maps K to the
later value v2. -/
theorem buildOpaqueSecret_spec_witness :
    buildOpaqueSecret mC5 = .ok dC5 ∧
    dC5.name = mC5.gsmSecret.spec.targetSecret.name ∧
    dC5.ns = mC5.gsmSecret.meta.ns ∧
    dC5.secretType = secretTypeOpaque ∧
    dataLookup dC5.data "K" = lastWrittenValue mC5.payloads "K" ∧
    lastWrittenValue mC5.payloads "K" = some (strBytes "v2") := by
  have hd : buildOpaqueSecret mC5 = .ok dC5 := by rfl
  have spec := (buildOpaqueSecret_spec mC5).2 dC5 hd
  exact ⟨hd, spec.1, spec.2.1, spec.2.2.1, spec.2.2.2 "K", by rfl⟩

/-- C7: the DesiredState change predicate reconciles exactly when the
generation differs or some recognized annotation key differs in value
between the old and new object, a missing key reading as the empty string;
nothing else (status, labels, unrecognized annotations) enters the
decision. -/
theorem gsmSecretChanged_iff (oldObj newObj : GSMSecret) :
    gsmSecretChangedUpdate oldObj newObj = true ↔
      (oldObj.meta.generation ≠ newObj.meta.generation ∨
       ∃ key ∈ relevantAnnotations,
         StrMap.get oldObj.meta.annotations key ≠ StrMap.get newObj.meta.annotations key) := by
  unfold gsmSecretChangedUpdate
  by_cases hg : oldObj.meta.generation = newObj.meta.generation <;>
    simp [hg, List.any_eq_true]

/-- Helper: a lookup misses exactly when the key is absent. -/
theorem dataLookup_eq_none_iff {α : Type} (m : List (String × α)) (k : String) :
    dataLookup m k = none ↔ k ∉ m.map Prod.fst := by
  induction m with
  | nil => simp [dataLookup]
  | cons p rest ih =>
    by_cases h : p.1 = k
    · subst h
      simp [dataLookup]
    · simp only [dataLookup, h, if_false, ite_false, List.map_cons, List.mem_cons]
      rw [ih]
      constructor
      · rintro hn (he | hm)
        · exact h he.symm
        · exact hn hm
      · intro hn hm
        exact hn (Or.inr hm)

/-- Helper: a successful lookup exhibits membership. -/
theorem mem_of_dataLookup {α : Type} (m : List (String × α)) (k : String) (v : α)
    (h : dataLookup m k = some v) : (k, v) ∈ m := by
  induction m with
  | nil => cases h
  | cons p rest ih =>
    by_cases hp : p.1 = k
    · have h2 : some p.2 = some v := by rw [← h]; simp [dataLookup, hp]
      have hpv : p = (k, v) := by
        cases p
        simp only [Option.some.injEq] at h2
        simp_all
      rw [← hpv]
      exact List.mem_cons_self p rest
    · have h2 : dataLookup rest k = some v := by rw [← h]; simp [dataLookup, hp]
      exact List.mem_cons_of_mem _ (ih h2)

/-- Helper: with unique keys, membership determines the lookup. -/
theorem dataLookup_of_mem {α : Type} (m : List (String × α)) (k : String) (v : α)
    (hm : NodupKeys m) (h : (k, v) ∈ m) : dataLookup m k = some v := by
  induction m with
  | nil => cases h
  | cons p rest ih =>
    have hnodup : (p.1 :: rest.map Prod.fst).Nodup := by
      have := hm
      unfold NodupKeys at this
      simpa using this
    rcases List.mem_cons.mp h with heq | hmem
    · rw [← heq]
      simp [dataLookup]
    · have hp : p.1 ≠ k := by
        intro hpk
        have hk : k ∈ rest.map Prod.fst := List.mem_map.mpr ⟨(k, v), hmem, rfl⟩
        exact (List.nodup_cons.mp hnodup).1 (hpk ▸ hk)
      have hrest : NodupKeys rest := (List.nodup_cons.mp hnodup).2
      simp [dataLookup, hp, ih hrest hmem]

/-- Helper: secretDataEqual unpacked into its two checks. -/
theorem secretDataEqual_true_iff (a b : SecretData) :
    secretDataEqual a b = true ↔
      (a.length = b.length ∧ ∀ p ∈ a, dataLookup b p.1 = some p.2) := by
  unfold secretDataEqual
  by_cases hlen : a.length = b.length
  · have hb : (a.length != b.length) = false := by simp [hlen]
    rw [hb]
    simp only [Bool.false_eq_true, if_false, ite_false, List.all_eq_true, hlen, true_and]
    constructor
    · intro h p hp
      have := h p hp
      cases hbp : dataLookup b p.1 with
      | none => rw [hbp] at this; exact absurd this (by simp)
      | some bv =>
        rw [hbp] at this
        simp only [beq_iff_eq] at this
        rw [this]
    · intro h p hp
      rw [h p hp]
      simp
  · have hb : (a.length != b.length) = true := by simp [hlen]
    rw [hb]
    simp [hlen]

/-- Helper: the size check plus per-entry lookups of secretDataEqual
decide extensional equality of the two maps, under unique keys. -/
theorem secretDataEqual_iff (a b : SecretData)
    (ha : NodupKeys a) (hb : NodupKeys b) :
    secretDataEqual a b = true ↔ ∀ k, dataLookup a k = dataLookup b k := by
  rw [secretDataEqual_true_iff]
  constructor
  · rintro ⟨hlen, hmem⟩ k
    cases hak : dataLookup a k with
    | some v => exact (hmem (k, v) (mem_of_dataLookup a k v hak)).symm
    | none =>
      cases hbk : dataLookup b k with
      | none => rfl
      | some w =>
        exfalso
        have hsub : a.map Prod.fst ⊆ b.map Prod.fst := by
          intro x hx
          rcases List.mem_map.mp hx with ⟨p, hp, hpx⟩
          subst hpx
          exact List.mem_map.mpr ⟨(p.1, p.2), mem_of_dataLookup b p.1 p.2 (hmem p hp), rfl⟩
        have hperm : List.Perm (a.map Prod.fst) (b.map Prod.fst) :=
          List.Subperm.perm_of_length_le (List.subperm_of_subset ha hsub)
            (by simpa using hlen.ge)
        have hk : k ∈ a.map Prod.fst :=
          hperm.mem_iff.mpr (List.mem_map.mpr ⟨(k, w), mem_of_dataLookup b k w hbk, rfl⟩)
        exact (dataLookup_eq_none_iff a k).mp hak hk
  · intro h
    have hkeys : ∀ k, k ∈ a.map Prod.fst ↔ k ∈ b.map Prod.fst := by
      intro k
      constructor
      · intro hk
        by_contra hbk
        have hbnone := (dataLookup_eq_none_iff b k).mpr hbk
        exact (dataLookup_eq_none_iff a k).mp ((h k).trans hbnone) hk
      · intro hk
        by_contra hak
        have hanone := (dataLookup_eq_none_iff a k).mpr hak
        exact (dataLookup_eq_none_iff b k).mp ((h k).symm.trans hanone) hk
    have hperm : List.Perm (a.map Prod.fst) (b.map Prod.fst) :=
      (List.perm_ext_iff_of_nodup ha hb).mpr hkeys
    have hlen : a.length = b.length := by
      have := hperm.length_eq
      simpa using this
    refine ⟨hlen, fun p hp => ?_⟩
    have hap : dataLookup a p.1 = some p.2 := dataLookup_of_mem a p.1 p.2 ha hp
    rw [← h p.1, hap]

/-- C8: the TargetObject change predicate reconciles exactly when the Type
tag differs or the data maps differ extensionally (byte-exact values,
order-independent, nil and empty both being the empty map); the decision
reads nothing but Type and Data, so metadata-only updates never
reconcile. -/
theorem secretDataChanged_iff (oldSecret newSecret : CoreSecret)
    (ha : NodupKeys oldSecret.data) (hb : NodupKeys newSecret.data) :
    secretDataChangedUpdate oldSecret newSecret = true ↔
      (oldSecret.secretType ≠ newSecret.secretType ∨
       ∃ k, dataLookup oldSecret.data k ≠ dataLookup newSecret.data k) := by
  by_cases ht : oldSecret.secretType = newSecret.secretType
  · constructor
    · intro h
      right
      by_contra hall
      push_neg at hall
      have heq : secretDataEqual oldSecret.data newSecret.data = true :=
        (secretDataEqual_iff _ _ ha hb).mpr hall
      simp [secretDataChangedUpdate, ht, heq] at h
    · rintro (htne | ⟨k, hk⟩)
      · exact absurd ht htne
      · have hne : secretDataEqual oldSecret.data newSecret.data ≠ true :=
          fun heq => hk ((secretDataEqual_iff _ _ ha hb).mp heq k)
        have hfalse : secretDataEqual oldSecret.data newSecret.data = false :=
          Bool.not_eq_true _ ▸ Bool.of_not_eq_true hne
        simp [secretDataChangedUpdate, ht, hfalse]
  · constructor
    · intro _
      exact Or.inl ht
    · intro _
      simp [secretDataChangedUpdate, ht]

/-- Witness for C8: a resourceVersion-only bump with identical data and
type does not reconcile, while a changed data value does. -/
theorem secretDataChanged_iff_witness :
    secretDataChangedUpdate oldSecC8 newSecC8 = false ∧
    secretDataChangedUpdate oldSecC8 newSecC8b = true := by
  constructor
  · have hiff := secretDataChanged_iff oldSecC8 newSecC8 (by decide) (by decide)
    cases hb : secretDataChangedUpdate oldSecC8 newSecC8 with
    | false => rfl
    | true =>
      exfalso
      rcases hiff.mp hb with ht | ⟨k, hk⟩
      · exact ht rfl
      · exact hk rfl
  · exact (secretDataChanged_iff oldSecC8 newSecC8b (by decide) (by decide)).mpr
      (Or.inr ⟨"key", by decide⟩)

/-- C10: resolvePayloads is atomic in the payloads field: whenever it
returns an error (client construction failure, a fetch failure, or one of
the entry validation failures), the payloads of the materializer keep
their prior value, because the collected results are assigned only after
every entry succeeded. -/
theorem resolvePayloads_atomic (m : SecretMaterializer) (client : Except String Unit)
    (access : GsmAccess) (m1 : SecretMaterializer) (err : String)
    (h : resolvePayloads m client access = (m1, some err)) :
    m1.payloads = m.payloads := by
  unfold resolvePayloads at h
  split at h
  · cases h
  · split at h
    · cases h; rfl
    · split at h
      · cases h; rfl
      · cases h

/-- Witness for C10: the cannot-set-both validation error leaves the prior
payloads untouched. -/
theorem resolvePayloads_atomic_witness :
    resolvePayloads mC10 (.ok ()) accessC2w =
      ((resolvePayloads mC10 (.ok ()) accessC2w).1,
        some "invalid GSMSecret entry: cannot set both key and keys") ∧
    (resolvePayloads mC10 (.ok ()) accessC2w).1.payloads = mC10.payloads :=
  ⟨by rfl,
    resolvePayloads_atomic mC10 (.ok ()) accessC2w
      (resolvePayloads mC10 (.ok ()) accessC2w).1
      "invalid GSMSecret entry: cannot set both key and keys" (by rfl)⟩

/-- Helper: a string beginning with a slash does not trim to the empty
string (a slash is not white space). -/
theorem goTrimSpace_slash_ne (s : String) (h : startsWithSlash s = true) :
    goTrimSpace s ≠ "" := by
  unfold startsWithSlash at h
  match hs : s.data with
  | [] => rw [hs] at h; cases h
  | c :: rest =>
    rw [hs] at h
    simp only [beq_iff_eq] at h
    subst h
    unfold goTrimSpace
    rw [hs]
    have hslash : goIsSpace '/' = false := by decide
    intro hcontra
    have hlist : (((('/' :: rest).dropWhile goIsSpace).reverse.dropWhile goIsSpace).reverse) = [] := by
      have := congrArg String.data hcontra
      simpa using this
    rw [List.reverse_eq_nil_iff, List.dropWhile_eq_nil_iff] at hlist
    have hmem : '/' ∈ (('/' :: rest).dropWhile goIsSpace).reverse := by
      rw [List.mem_reverse]
      have : ('/' :: rest).dropWhile goIsSpace = '/' :: rest := by
        simp [List.dropWhile, hslash]
      rw [this]
      exact List.mem_cons_self _ _
    have := hlist '/' hmem
    rw [hslash] at this
    cases this

/-- C6: key-mapping semantics of the resolver: a mapping whose key starts
with a slash has the key resolved as a JSON Pointer and required to be a
JSON string matching the target-key pattern (with the not-a-string and
does-not-match errors otherwise), a key not starting with a slash is used
literally, and the emitted payload carries the value at the value pointer
re-serialized as JSON bytes; in particular the spec scenario payload with
mapping key /k and value /v emits target key ENV_KEY with the quoted
string bytes of val. -/
theorem mapKeys_pointer_semantics :
    (∀ (payload : Json) (mp : SecretKeyMapping) (rk : String) (v : Json),
      goTrimSpace mp.value ≠ "" →
      startsWithSlash mp.key = true →
      extractStringAtPointer payload mp.key = .ok rk →
      secretKeyMatches rk = true →
      jsonPointerGet payload mp.value = .ok v →
      processMappings payload [mp] = .ok [⟨rk, jsonMarshal v⟩]) ∧
    (∀ (payload : Json) (mp : SecretKeyMapping) (v : Json) (p : KeyedSecretPayload),
      goTrimSpace mp.key ≠ "" →
      goTrimSpace mp.value ≠ "" →
      startsWithSlash mp.key = false →
      jsonPointerGet payload mp.value = .ok v →
      newKeyedSecretPayload mp.key (jsonMarshal v) = .ok p →
      processMappings payload [mp] = .ok [p]) ∧
    (∀ (payload : Json) (mp : SecretKeyMapping) (v : Json),
      goTrimSpace mp.value ≠ "" →
      startsWithSlash mp.key = true →
      jsonPointerGet payload mp.key = .ok v →
      (∀ s, v ≠ .str s) →
      processMappings payload [mp] =
        .error ("resolve key pointer " ++ goQuote mp.key ++ ": " ++
          ("value at " ++ goQuote mp.key ++ " is not a string"))) ∧
    (∀ (payload : Json) (mp : SecretKeyMapping) (rk : String),
      goTrimSpace mp.value ≠ "" →
      startsWithSlash mp.key = true →
      extractStringAtPointer payload mp.key = .ok rk →
      secretKeyMatches rk = false →
      processMappings payload [mp] =
        .error ("resolved key " ++ goQuote rk ++ " does not match " ++
          goQuote secretKeyRegexString)) ∧
    mapKeysToSecretKeyMappings (strBytes "\x7b\"k\":\"ENV_KEY\",\"v\":\"val\"\x7d")
      [⟨"/k", "/v"⟩] = .ok [⟨"ENV_KEY", strBytes "\"val\""⟩] := by
  refine ⟨?_, ?_, ?_, ?_, by rfl⟩
  · intro payload mp rk v hval hslash hext hmatch hget
    have hkey := goTrimSpace_slash_ne mp.key hslash
    unfold processMappings
    simp only [hkey, hval, hslash, hext, hmatch, hget, if_false, ite_false, if_true,
      ite_true, Bool.not_true]
    simp [newKeyedSecretPayload, hmatch, processMappings]
  · intro payload mp v p hkey hval hslash hget hnew
    unfold processMappings
    simp only [hkey, hval, hslash, hget, hnew, if_false, ite_false]
    simp [hkey, hval, hslash, hget, hnew, processMappings]
  · intro payload mp v hval hslash hget hnstr
    have hkey := goTrimSpace_slash_ne mp.key hslash
    have hext : extractStringAtPointer payload mp.key =
        .error ("value at " ++ goQuote mp.key ++ " is not a string") := by
      unfold extractStringAtPointer
      rw [hget]
      cases v with
      | str s => exact absurd rfl (hnstr s)
      | null => rfl
      | boolean b => rfl
      | num lit => rfl
      | arr es => rfl
      | obj fs => rfl
    unfold processMappings
    simp [hkey, hval, hslash, hext]
  · intro payload mp rk hval hslash hext hmatch
    have hkey := goTrimSpace_slash_ne mp.key hslash
    unfold processMappings
    simp [hkey, hval, hslash, hext, hmatch]

/-- Witness for C6 at the spec scenario: the pointer key /k resolves to
ENV_KEY, which matches the pattern, and the value at /v is re-serialized
as the quoted string bytes of val. -/
theorem mapKeys_pointer_semantics_witness :
    goTrimSpace ("/v" : String) ≠ "" ∧
    startsWithSlash "/k" = true ∧
    extractStringAtPointer payloadC6 "/k" = .ok "ENV_KEY" ∧
    secretKeyMatches "ENV_KEY" = true ∧
    jsonPointerGet payloadC6 "/v" = .ok (.str "val") ∧
    processMappings payloadC6 [⟨"/k", "/v"⟩] = .ok [⟨"ENV_KEY", jsonMarshal (.str "val")⟩] :=
  ⟨by decide, by rfl, by rfl, by rfl, by rfl,
    mapKeys_pointer_semantics.1 payloadC6 ⟨"/k", "/v"⟩ "ENV_KEY" (.str "val")
      (by decide) (by rfl) (by rfl) (by rfl) (by rfl)⟩

end GsmOperator
